import Mathlib

/-!
Shallow embedding of the explore-api moderation engine and submission
lifecycle (src/middleware/rate-limit.ts moderation section,
src/services/moderation.ts, and the SubmissionService), with theorems
checking the specification claims.

JavaScript numbers are modelled by rationals; the only non-finite values
the relevant code can produce are the `-Infinity` / `+Infinity` results of
`Math.max(...[])` / `Math.min(...[])` on an empty argument list, which are
modelled explicitly by the `JNum` type used for the aggregate scores.
-/

/-- JavaScript number restricted to the values reachable in the moderation
pipeline: a finite rational or one of the two infinities produced by
`Math.max()` / `Math.min()` with no arguments. -/
inductive JNum where
  | negInf : JNum
  | fin (q : ℚ) : JNum
  | posInf : JNum
deriving DecidableEq

/-- The `<` comparison on JS numbers (no NaN arises in this pipeline). -/
def jsLt : JNum → JNum → Bool
  | JNum.negInf, JNum.negInf => false
  | JNum.negInf, _ => true
  | JNum.fin _, JNum.negInf => false
  | JNum.fin a, JNum.fin b => decide (a < b)
  | JNum.fin _, JNum.posInf => true
  | JNum.posInf, _ => false

/-- The `<=` comparison on JS numbers (no NaN arises in this pipeline). -/
def jsLe : JNum → JNum → Bool
  | JNum.negInf, _ => true
  | JNum.fin _, JNum.negInf => false
  | JNum.fin a, JNum.fin b => decide (a ≤ b)
  | JNum.fin _, JNum.posInf => true
  | JNum.posInf, JNum.posInf => true
  | JNum.posInf, _ => false

/-- Binary `Math.max`. -/
def jsMax (a b : JNum) : JNum := if jsLt a b then b else a

/-- Binary `Math.min`. -/
def jsMin (a b : JNum) : JNum := if jsLt b a then b else a

/-- `Math.max(...xs)` over a list of finite numbers: `-Infinity` when the
list is empty. -/
def jsMaxList (l : List ℚ) : JNum :=
  l.foldl (fun acc q => jsMax acc (JNum.fin q)) JNum.negInf

/-- `Math.min(...xs)` over a list of finite numbers: `+Infinity` when the
list is empty. -/
def jsMinList (l : List ℚ) : JNum :=
  l.foldl (fun acc q => jsMin acc (JNum.fin q)) JNum.posInf

/-- JS `x || d` for an optional string `x`: `null`/`undefined` and the
empty string are falsy. -/
def jsOrStr (x : Option String) (d : String) : String :=
  match x with
  | none => d
  | some s => if s = "" then d else s

/-- JS `x || d` for an optional number `x`: `undefined` and `0` are falsy. -/
def jsOrNum (x : Option ℚ) (d : ℚ) : ℚ :=
  match x with
  | none => d
  | some q => if q = 0 then d else q

/-- The object literal inside `likelihood`
(`VERY_UNLIKELY: 0, UNLIKELY: 0.2, POSSIBLE: 0.5, LIKELY: 0.8,
VERY_LIKELY: 1`); a missing key is JS `undefined`, modelled as `none`. -/
def likelihoodMap (s : String) : Option ℚ :=
  if s = "VERY_UNLIKELY" then some 0
  else if s = "UNLIKELY" then some (2/10)
  else if s = "POSSIBLE" then some (5/10)
  else if s = "LIKELY" then some (8/10)
  else if s = "VERY_LIKELY" then some 1
  else none

/-- `likelihood` from the moderation code:
`return map[level || 'UNKNOWN'] || 0.5;` — note the outer `||` turns both
a missing entry (`undefined`) and the mapped value `0` into `0.5`. -/
def likelihood (level : Option String) : ℚ :=
  jsOrNum (likelihoodMap (jsOrStr level "UNKNOWN")) (5/10)

/-- Result record returned by `moderateImage`. -/
structure ModerationResult where
  safe : Bool
  spam : ℚ
  inappropriate : ℚ
  reasons : List String
deriving DecidableEq

/-- The scoring part of `moderateImage` once the three per-axis
probabilities have been computed: `inappropriate = Math.max(adult,
violence, racy)`, one reason pushed per axis strictly above `0.6`, and
`safe = inappropriate < 0.5`. -/
def scoreSafety (adult violence racy : ℚ) : ModerationResult :=
  let inappropriate := max (max adult violence) racy
  let reasons :=
    (if adult > 6/10 then ["Adult content"] else []) ++
    (if violence > 6/10 then ["Violence"] else []) ++
    (if racy > 6/10 then ["Racy content"] else [])
  { safe := decide (inappropriate < 5/10), spam := 0,
    inappropriate := inappropriate, reasons := reasons }

/-- The `safeSearchAnnotation` fields consumed by `moderateImage`; each is
an optional likelihood label string. -/
structure SafeSearchInfo where
  adult : Option String
  violence : Option String
  racy : Option String

/-- Outcome of the external `safeSearchDetection` call: the call may throw
(`err`), or succeed with or without a usable safe-search record. -/
inductive SafeSearchOutcome where
  | err : SafeSearchOutcome
  | ok (info : Option SafeSearchInfo) : SafeSearchOutcome

/-- `moderateImage`: fail-open on a thrown external error, fail-closed on
a successful call with no safe-search record, otherwise score the three
axes via `likelihood` (`String(safeSearch.adult || 'UNKNOWN')` etc.). -/
def moderateImage (o : SafeSearchOutcome) : ModerationResult :=
  match o with
  | SafeSearchOutcome.err =>
      { safe := true, spam := 0, inappropriate := 0,
        reasons := ["Moderation service temporarily unavailable"] }
  | SafeSearchOutcome.ok none =>
      { safe := false, spam := 0, inappropriate := 1,
        reasons := ["Unable to analyze image"] }
  | SafeSearchOutcome.ok (some info) =>
      scoreSafety
        (likelihood (some (jsOrStr info.adult "UNKNOWN")))
        (likelihood (some (jsOrStr info.violence "UNKNOWN")))
        (likelihood (some (jsOrStr info.racy "UNKNOWN")))

/-- `NAIL_RELATED_LABELS` (Vocabulary A). -/
def NAIL_RELATED_LABELS : List String := [
  "nail", "nails", "manicure", "pedicure", "nail art", "nail polish",
  "fingernail", "toenail", "nail salon", "nail design", "acrylic nail",
  "gel nail", "nail extension", "nail tip", "cuticle", "nail bed",
  "french manicure", "nail technician", "nail care", "nail treatment",
  "hand", "finger", "cosmetics", "beauty", "spa", "beauty salon",
  "nail lacquer", "nail color", "nail file", "nail brush", "nail lamp",
  "press on nails", "dip powder", "shellac", "nail wrap", "nail sticker",
  "rhinestone", "glitter", "nail gem", "nail charm", "ombre nails",
  "chrome nails", "matte nails", "glossy", "stiletto nails", "coffin nails",
  "almond nails", "square nails", "oval nails", "nail shape"]

/-- `BEAUTY_PRODUCT_LABELS` (Vocabulary B). -/
def BEAUTY_PRODUCT_LABELS : List String := [
  "cosmetic", "beauty product", "makeup", "skincare", "lotion",
  "cream", "bottle", "container", "beauty", "salon", "spa"]

/-- JS `toLowerCase`, modelled characterwise over the string's characters
(the labels involved are ASCII). -/
def toLowerStr (s : String) : String := String.mk (s.toList.map Char.toLower)

/-- `pat` occurs as a contiguous run inside `l`. -/
def subrunOf (pat : List Char) : List Char → Bool
  | [] => pat.isEmpty
  | c :: rest => pat.isPrefixOf (c :: rest) || subrunOf pat rest

/-- JS `s.includes(pat)`. -/
def strIncludes (s pat : String) : Bool := subrunOf pat.toList s.toList

/-- One element of `labelAnnotations` as consumed by `checkNailRelevance`:
an optional description and an optional confidence score. -/
structure DetectedLabel where
  description : Option String
  score : Option ℚ

/-- Result record returned by `checkNailRelevance`. -/
structure RelevanceResult where
  isNailRelated : Bool
  relevanceScore : ℚ
  detectedLabels : List String
  reasons : List String
deriving DecidableEq

/-- Outcome of the external `labelDetection` call. -/
inductive LabelOutcome where
  | err : LabelOutcome
  | ok (labels : List DetectedLabel) : LabelOutcome

/-- `', '`-joined list, as produced by JS `Array.join(', ')`. -/
def joinComma : List String → String
  | [] => ""
  | [s] => s
  | s :: rest => s ++ ", " ++ joinComma rest

/-- The label-matching loop of `checkNailRelevance`: folds over the
detected `(label, score)` pairs, keeping the max matching confidence
against Vocabulary A (`nailScore`) and `0.7 ×` the max matching confidence
against Vocabulary B (`beautyScore`); a match is a substring containment
in either direction. -/
def relevanceFold (labelScores : List (String × ℚ)) : ℚ × ℚ :=
  labelScores.foldl
    (fun acc ls =>
      let nailScore := NAIL_RELATED_LABELS.foldl
        (fun n nailLabel =>
          if strIncludes ls.1 nailLabel || strIncludes nailLabel ls.1 then
            max n ls.2
          else n) acc.1
      let beautyScore := BEAUTY_PRODUCT_LABELS.foldl
        (fun b beautyLabel =>
          if strIncludes ls.1 beautyLabel || strIncludes beautyLabel ls.1 then
            max b (ls.2 * (7/10))
          else b) acc.2
      (nailScore, beautyScore))
    (0, 0)

/-- `checkNailRelevance`: fail-open on external error; otherwise
`relevanceScore = min(1, nailScore + beautyScore × 0.3)` and
`isNailRelated = relevanceScore ≥ 0.3`, with diagnostic reasons when not
relevant.  (`matchedNailLabels`/`matchedBeautyLabels` are only logged by
the source and are not modelled.) -/
def checkNailRelevance (o : LabelOutcome) : RelevanceResult :=
  match o with
  | LabelOutcome.err =>
      { isNailRelated := true, relevanceScore := 5/10, detectedLabels := [],
        reasons := ["Relevance check temporarily unavailable"] }
  | LabelOutcome.ok labels =>
      let detectedLabels := labels.map
        (fun l => jsOrStr (l.description.map toLowerStr) "")
      let labelScores := labels.map
        (fun l => (jsOrStr (l.description.map toLowerStr) "",
                   jsOrNum l.score 0))
      let scores := relevanceFold labelScores
      let relevanceScore := min 1 (scores.1 + scores.2 * (3/10))
      let isNailRelated := decide (relevanceScore ≥ 3/10)
      let reasons :=
        if isNailRelated then []
        else ["Content does not appear to be nail-related"] ++
          (if detectedLabels.length > 0 then
            ["Detected: " ++ joinComma (detectedLabels.take 5)]
          else [])
      { isNailRelated := isNailRelated, relevanceScore := relevanceScore,
        detectedLabels := detectedLabels.take 10, reasons := reasons }

/-- Result record returned by `moderateImageEnhanced` (per image). -/
structure EnhancedModerationResult where
  safe : Bool
  spam : ℚ
  inappropriate : ℚ
  reasons : List String
  nailRelated : Bool
  nailRelevanceScore : ℚ
  detectedLabels : List String
deriving DecidableEq

/-- `moderateImageEnhanced`: combines the safety result and the relevance
result for one image; `safe` requires both. -/
def moderateImageEnhanced (so : SafeSearchOutcome) (lo : LabelOutcome) :
    EnhancedModerationResult :=
  let s := moderateImage so
  let r := checkNailRelevance lo
  { safe := s.safe && r.isNailRelated, spam := s.spam,
    inappropriate := s.inappropriate, reasons := s.reasons ++ r.reasons,
    nailRelated := r.isNailRelated,
    nailRelevanceScore := r.relevanceScore,
    detectedLabels := r.detectedLabels }

/-- The two external-call outcomes for one media URL in an enhanced
submission evaluation. -/
structure ImageInput where
  safety : SafeSearchOutcome
  labels : LabelOutcome

/-- The per-image results of `moderateSubmissionEnhanced`: either the
enhanced check, or the plain safety check padded with
`nailRelated: true, nailRelevanceScore: 1, detectedLabels: []` when
relevance checking is disabled. -/
def imageResultsOf (inputs : List ImageInput) (checkRelevance : Bool) :
    List EnhancedModerationResult :=
  inputs.map (fun i =>
    if checkRelevance then moderateImageEnhanced i.safety i.labels
    else
      let r := moderateImage i.safety
      { safe := r.safe, spam := r.spam, inappropriate := r.inappropriate,
        reasons := r.reasons, nailRelated := true, nailRelevanceScore := 1,
        detectedLabels := [] })

/-- `[...new Set(xs)]`: deduplication keeping the first occurrence of each
element, in order. -/
def jsSetDedup (l : List String) : List String := go [] l
where
  go : List String → List String → List String
    | _, [] => []
    | seen, x :: xs =>
      if x ∈ seen then go seen xs else x :: go (x :: seen) xs

/-- Submission-level verdict of `moderateSubmissionEnhanced`; the two
aggregate scores are JS numbers because `Math.max()`/`Math.min()` of an
empty list are infinite.  (`processingTime` is wall-clock and is not
modelled.) -/
structure SubmissionVerdict where
  safe : Bool
  spam : ℚ
  inappropriate : JNum
  nailRelated : Bool
  nailRelevanceScore : JNum
  detectedLabels : List String
  reasons : List String
  imagesProcessed : ℕ
  estimatedCost : ℚ

/-- `moderateSubmissionEnhanced`, parameterised by the recent-submission
count returned by `checkRecentSubmissionCount` and by the per-URL external
call outcomes; the configurable per-image costs are passed in. -/
def moderateSubmissionEnhanced (recentCount : ℕ) (inputs : List ImageInput)
    (checkRelevance : Bool) (costPerImage costPerLabel : ℚ) :
    SubmissionVerdict :=
  let spamScore : ℚ := min ((recentCount : ℚ) / 10) 1
  let imageResults := imageResultsOf inputs checkRelevance
  let maxInappropriate :=
    jsMaxList (imageResults.map EnhancedModerationResult.inappropriate)
  let minNailRelevance :=
    jsMinList (imageResults.map EnhancedModerationResult.nailRelevanceScore)
  let allNailRelated :=
    imageResults.all EnhancedModerationResult.nailRelated
  let allLabels :=
    jsSetDedup (imageResults.flatMap EnhancedModerationResult.detectedLabels)
  let allReasons :=
    imageResults.flatMap EnhancedModerationResult.reasons ++
    (if spamScore > 7/10 then ["Rapid submission pattern detected"] else [])
  let estimatedCost := (inputs.length : ℚ) *
    (costPerImage + (if checkRelevance then costPerLabel else 0))
  let safe := jsLt maxInappropriate (JNum.fin (5/10)) &&
    decide (spamScore < 7/10) && allNailRelated
  { safe := safe, spam := spamScore, inappropriate := maxInappropriate,
    nailRelated := allNailRelated, nailRelevanceScore := minNailRelevance,
    detectedLabels := allLabels.take 20, reasons := jsSetDedup allReasons,
    imagesProcessed := inputs.length, estimatedCost := estimatedCost }

/-- Submission-level result of the plain `moderateSubmission` (no
relevance checking). -/
structure SubmissionResult where
  safe : Bool
  spam : ℚ
  inappropriate : JNum
  reasons : List String
  imagesProcessed : ℕ
  estimatedCost : ℚ

/-- `moderateSubmission`: spam heuristic plus plain per-image safety
moderation, aggregated by `Math.max` over the inappropriate scores. -/
def moderateSubmission (recentCount : ℕ) (inputs : List SafeSearchOutcome)
    (costPerImage : ℚ) : SubmissionResult :=
  let spamScore : ℚ := min ((recentCount : ℚ) / 10) 1
  let imageResults := inputs.map moderateImage
  let maxInappropriate :=
    jsMaxList (imageResults.map ModerationResult.inappropriate)
  let allReasons :=
    imageResults.flatMap ModerationResult.reasons ++
    (if spamScore > 7/10 then ["Rapid submission pattern detected"] else [])
  { safe := jsLt maxInappropriate (JNum.fin (5/10)) &&
      decide (spamScore < 7/10),
    spam := spamScore, inappropriate := maxInappropriate,
    reasons := jsSetDedup allReasons, imagesProcessed := inputs.length,
    estimatedCost := (inputs.length : ℚ) * costPerImage }

/-- One document of the `moderation_metrics` collection. -/
structure CostRecord where
  userId : String
  imageCount : ℕ
  estimatedCost : ℚ
  timestamp : ℕ
deriving DecidableEq

/-- `trackModerationCost`: append one cost record, then recompute the
monthly total as the sum of `estimatedCost` over all records timestamped
at or after the start of the current month, and warn when that total
strictly exceeds the alert threshold.  Returns the new collection, the
recomputed total and whether the warning fired. -/
def trackModerationCost (threshold : ℚ) (monthStart : ℕ)
    (db : List CostRecord) (uid : String) (imageCount : ℕ) (cost : ℚ)
    (now : ℕ) : List CostRecord × ℚ × Bool :=
  let db' := db ++ [{ userId := uid, imageCount := imageCount,
                      estimatedCost := cost, timestamp := now }]
  let monthlyTotal :=
    ((db'.filter (fun r => monthStart ≤ r.timestamp)).map
      CostRecord.estimatedCost).foldl (· + ·) 0
  (db', monthlyTotal, decide (monthlyTotal > threshold))

/-- Sequential runs of `trackModerationCost`: for each `(cost, timestamp)`
pair in turn, record it and collect the recomputed monthly total and the
warning flag of that evaluation. -/
def runLedger (threshold : ℚ) (monthStart : ℕ) (db : List CostRecord) :
    List (ℚ × ℕ) → List CostRecord × List (ℚ × Bool)
  | [] => (db, [])
  | (c, t) :: rest =>
    let r := trackModerationCost threshold monthStart db "u" 1 c t
    let rec' := runLedger threshold monthStart r.1 rest
    (rec'.1, (r.2.1, r.2.2) :: rec'.2)

/-- The fields of one `explore_submissions` document touched by the
lifecycle operations. -/
structure SubDoc where
  userId : String
  status : String
  title : String
  mediaUrls : List String
  reviewedAt : Option ℕ
  reviewedBy : Option String
  rejectionReason : Option String
  approvedEntryId : Option String
deriving DecidableEq

/-- One document of an `explore_collections/{id}/entries` subcollection,
as written by `approveSubmission`. -/
structure PublishedEntry where
  entryId : String
  collectionId : String
  title : String
  mediaUrl : Option String
  submitterId : String
  curatedBy : String
  trendScore : ℚ
  source : String
  likes : ℕ
  saves : ℕ
  shares : ℕ
deriving DecidableEq

/-- Persistent state for one submission: the submission document (if it
exists) and the published entries created so far. -/
structure SysState where
  sub : Option SubDoc
  entries : List PublishedEntry
deriving DecidableEq

/-- `createSubmission`: writes a fresh document with the initial status
determined by the moderation verdict (`safe → pending`, else `flagged`)
and all review fields null. -/
def createSubmission (userId title : String) (mediaUrls : List String)
    (safe : Bool) : SysState :=
  { sub := some { userId := userId,
                  status := if safe then "pending" else "flagged",
                  title := title, mediaUrls := mediaUrls,
                  reviewedAt := none, reviewedBy := none,
                  rejectionReason := none, approvedEntryId := none },
    entries := [] }

/-- `withdrawSubmission`: returns false when the document is missing or
owned by another user; otherwise sets `status: 'withdrawn'` and
`reviewedAt` — and nothing else (`reviewedBy` is not touched). -/
def withdrawSubmission (s : SysState) (userId : String) (now : ℕ) :
    Bool × SysState :=
  match s.sub with
  | none => (false, s)
  | some d =>
    if d.userId ≠ userId then (false, s)
    else
      let d' := { d with status := "withdrawn", reviewedAt := some now }
      (true, { s with sub := some d' })

/-- `approveSubmission`: throws when the document is missing; otherwise —
with no check of the current status — creates a `PublishedEntry` from the
submission content (first media URL as image) and updates the submission
to `approved`, stamping `reviewedAt`/`reviewedBy`/`approvedEntryId`. -/
def approveSubmission (s : SysState) (reviewerId collectionId : String)
    (trendScore : ℚ) (entryId : String) (now : ℕ) :
    Except String (String × SysState) :=
  match s.sub with
  | none => Except.error "Submission not found"
  | some d =>
    let entry : PublishedEntry :=
      { entryId := entryId, collectionId := collectionId, title := d.title,
        mediaUrl := d.mediaUrls.head?, submitterId := d.userId,
        curatedBy := reviewerId, trendScore := trendScore,
        source := "user_submission", likes := 0, saves := 0, shares := 0 }
    let d' := { d with
      status := "approved",
      reviewedAt := some now,
      reviewedBy := some reviewerId,
      approvedEntryId := some entryId }
    Except.ok (entryId, { sub := some d', entries := s.entries ++ [entry] })

/-- `rejectSubmission`: returns false when the document is missing;
otherwise — with no check of the current status — sets `status:
'rejected'` and stamps `reviewedAt`/`reviewedBy`/`rejectionReason`. -/
def rejectSubmission (s : SysState) (reviewerId reason : String) (now : ℕ) :
    Bool × SysState :=
  match s.sub with
  | none => (false, s)
  | some d =>
    let d' := { d with
      status := "rejected",
      reviewedAt := some now,
      reviewedBy := some reviewerId,
      rejectionReason := some reason }
    (true, { s with sub := some d' })

/-- One lifecycle operation invoked after creation. -/
inductive LifecycleOp where
  | withdraw (userId : String) (now : ℕ)
  | approve (reviewerId collectionId : String) (trendScore : ℚ)
      (entryId : String) (now : ℕ)
  | reject (reviewerId reason : String) (now : ℕ)

/-- State transition of one lifecycle operation (a thrown approve leaves
the state unchanged). -/
def stepOp (s : SysState) : LifecycleOp → SysState
  | LifecycleOp.withdraw uid now => (withdrawSubmission s uid now).2
  | LifecycleOp.approve r c t e now =>
    match approveSubmission s r c t e now with
    | Except.ok p => p.2
    | Except.error _ => s
  | LifecycleOp.reject r reason now => (rejectSubmission s r reason now).2

/-- Run a sequence of lifecycle operations. -/
def applyOps (s : SysState) (ops : List LifecycleOp) : SysState :=
  ops.foldl stepOp s

/-- An operation that stamps `reviewedBy` when it succeeds (approve and
reject; withdraw never touches `reviewedBy`). -/
def isReviewOp : LifecycleOp → Bool
  | LifecycleOp.withdraw _ _ => false
  | LifecycleOp.approve _ _ _ _ _ => true
  | LifecycleOp.reject _ _ _ => true

/-- Whether an operation succeeds against a live document owned by
`owner`: withdraw requires the caller to be the owner; approve and reject
only require the document to exist. -/
def opSucceeds (owner : String) : LifecycleOp → Bool
  | LifecycleOp.withdraw uid _ => uid = owner
  | LifecycleOp.approve _ _ _ _ _ => true
  | LifecycleOp.reject _ _ _ => true

/-- Expected outputs of a sequence of cost recordings: running totals
starting from `s0` paired with the warning flag of each evaluation. -/
def ledgerTotals (threshold : ℚ) (s0 : ℚ) : List (ℚ × ℕ) → List (ℚ × Bool)
  | [] => []
  | (c, _) :: rest =>
    (s0 + c, decide (threshold < s0 + c)) :: ledgerTotals threshold (s0 + c) rest

/-- The aggregation contract of `moderateSubmissionEnhanced`: the verdict
carries the max per-item inappropriate score, the min per-item relevance
score, a `safe` flag equivalent to the three-way gate, and the
deduplicated union of reasons together with the spam reason when the spam
score strictly exceeds `0.7`. -/
def enhancedAggregateSpec (recentCount : ℕ) (inputs : List ImageInput)
    (checkRelevance : Bool) (cpi cpl : ℚ) : Prop :=
  let v := moderateSubmissionEnhanced recentCount inputs checkRelevance cpi cpl
  let rs := imageResultsOf inputs checkRelevance
  ∃ m mn : ℚ,
    v.inappropriate = JNum.fin m ∧
    m ∈ rs.map EnhancedModerationResult.inappropriate ∧
    (∀ r ∈ rs, r.inappropriate ≤ m) ∧
    v.nailRelevanceScore = JNum.fin mn ∧
    mn ∈ rs.map EnhancedModerationResult.nailRelevanceScore ∧
    (∀ r ∈ rs, mn ≤ r.nailRelevanceScore) ∧
    (v.safe = true ↔
      (m < 5/10 ∧ v.spam < 7/10 ∧
        (checkRelevance = true → ∀ r ∈ rs, r.nailRelated = true))) ∧
    v.reasons.Nodup ∧
    (∀ s : String, s ∈ v.reasons ↔
      ((∃ r ∈ rs, s ∈ r.reasons) ∨
        (7/10 < v.spam ∧ s = "Rapid submission pattern detected")))

/-- The spam-heuristic contract of `moderateSubmissionEnhanced`:
`spam = min(recentCount / 10, 1)` and the rapid-submission reason is in
the verdict exactly when that score strictly exceeds `0.7`. -/
def spamHeuristicSpec (recentCount : ℕ) (inputs : List ImageInput)
    (checkRelevance : Bool) (cpi cpl : ℚ) : Prop :=
  let v := moderateSubmissionEnhanced recentCount inputs checkRelevance cpi cpl
  v.spam = min ((recentCount : ℚ) / 10) 1 ∧
  ("Rapid submission pattern detected" ∈ v.reasons ↔ 7/10 < v.spam)

/-- The scoring contract of the safety scorer: inappropriate score is the
max of the three axes, `safe` is equivalent to that max being strictly
below `0.5`, and each per-axis reason is present exactly when that axis
strictly exceeds `0.6`. -/
def safetyScorerSpec (adult violence racy : ℚ) : Prop :=
  (scoreSafety adult violence racy).inappropriate = max (max adult violence) racy ∧
  ((scoreSafety adult violence racy).safe = true ↔
    max (max adult violence) racy < 5/10) ∧
  ("Adult content" ∈ (scoreSafety adult violence racy).reasons ↔ 6/10 < adult) ∧
  ("Violence" ∈ (scoreSafety adult violence racy).reasons ↔ 6/10 < violence) ∧
  ("Racy content" ∈ (scoreSafety adult violence racy).reasons ↔ 6/10 < racy)

/-- The cost-ledger contract of sequential `trackModerationCost` runs from
an empty collection: the k-th recomputed monthly total is the sum of the
first k costs and the warning fires at each evaluation whose total
strictly exceeds the threshold. -/
def ledgerSpec (threshold : ℚ) (monthStart : ℕ) (recs : List (ℚ × ℕ)) : Prop :=
  let outs := (runLedger threshold monthStart [] recs).2
  outs.length = recs.length ∧
  ∀ k (hk : k < outs.length),
    (outs.get ⟨k, hk⟩).1 = ((recs.take (k+1)).map Prod.fst).sum ∧
    ((outs.get ⟨k, hk⟩).2 = true ↔
      threshold < ((recs.take (k+1)).map Prod.fst).sum)

/-! ## Theorems -/

/-- Folding a max-on-match update over a vocabulary list equals a single
conditional max over whether any term matches. -/
theorem maxMatchFold (vocab : List String) (lab : String) (v n : ℚ) :
    vocab.foldl
      (fun acc t => if strIncludes lab t || strIncludes t lab then max acc v
        else acc) n =
    if (vocab.any fun t => strIncludes lab t || strIncludes t lab) then max n v
    else n := by
  induction vocab generalizing n with
  | nil => simp
  | cons t ts ih =>
    by_cases h : (strIncludes lab t || strIncludes t lab) = true
    · simp only [List.foldl_cons, h, if_true, List.any_cons, Bool.true_or,
        ih (max n v)]
      by_cases h2 : (ts.any fun t => strIncludes lab t || strIncludes t lab) = true
      · simp [h2, max_assoc]
      · simp [h2]
    · simp only [List.foldl_cons, h, if_false, List.any_cons,
        Bool.false_eq_true, ih n]
      simp only [Bool.not_eq_true] at h
      simp [h]

/-- `relevanceFold` on a single detected label: each vocabulary score is a
conditional max over whether any term of that vocabulary matches. -/
theorem relevanceFold_single (lab : String) (s : ℚ) :
    relevanceFold [(lab, s)] =
      ((if (NAIL_RELATED_LABELS.any fun t => strIncludes lab t || strIncludes t lab)
          then max 0 s else 0),
       (if (BEAUTY_PRODUCT_LABELS.any fun t => strIncludes lab t || strIncludes t lab)
          then max 0 (s * (7/10)) else 0)) := by
  simp only [relevanceFold, List.foldl_cons, List.foldl_nil]
  rw [maxMatchFold, maxMatchFold]

/-- Claim C1 (code bug): evaluated at the failing input, the Likelihood
Mapper returns `0.5` for `VERY_UNLIKELY` even though its own table maps
that label to `0`, because the JS fallback `map[level] || 0.5` treats the
mapped value `0` as falsy; the four other table entries and the
unknown/missing cases behave as the claim states. -/
theorem likelihood_table_eval :
    likelihood (some "VERY_UNLIKELY") = 5/10 ∧
    likelihood (some "UNLIKELY") = 2/10 ∧
    likelihood (some "POSSIBLE") = 5/10 ∧
    likelihood (some "LIKELY") = 8/10 ∧
    likelihood (some "VERY_LIKELY") = 1 ∧
    likelihood none = 5/10 ∧
    likelihood (some "") = 5/10 ∧
    likelihood (some "UNKNOWN") = 5/10 ∧
    likelihood (some "GIBBERISH") = 5/10 ∧
    ((5:ℚ)/10 ≠ 0) := by
  simp +decide [likelihood, likelihoodMap, jsOrStr, jsOrNum]

/-- Claim C3 (counterexample): on the detected label set
`[("cosmetic", 0.9)]` the Relevance Scorer returns `relevanceScore = 1`
and `isRelevant = true`, not `0.189` and `false` as the claim states —
refuting the claim at this concrete input. -/
theorem checkNailRelevance_cosmetic_counterexample :
    (checkNailRelevance (LabelOutcome.ok
      [⟨some "cosmetic", some (9/10)⟩])).relevanceScore ≠ 189/1000 ∧
    (checkNailRelevance (LabelOutcome.ok
      [⟨some "cosmetic", some (9/10)⟩])).isNailRelated = true := by
  have hA : (NAIL_RELATED_LABELS.any fun t =>
      strIncludes "cosmetic" t || strIncludes t "cosmetic") = true := by decide
  have hB : (BEAUTY_PRODUCT_LABELS.any fun t =>
      strIncludes "cosmetic" t || strIncludes t "cosmetic") = true := by decide
  have hlow : toLowerStr "cosmetic" = "cosmetic" := by decide
  simp +decide [checkNailRelevance, jsOrStr, jsOrNum, relevanceFold_single,
    hA, hB, hlow, max_def, min_def]
  norm_num

/-- Claim C3 (amended): `"cosmetic"` substring-matches the Vocabulary-A
term `"cosmetics"` (matching is bidirectional), so the primary score is
`0.9`, the secondary score is `0.9 × 0.7 = 0.63`, and
`relevanceScore = min(1, 0.9 + 0.63 × 0.3) = 1` with `isRelevant = true`;
a label set matching neither vocabulary gives `relevanceScore = 0` and
`isRelevant = false`. -/
theorem checkNailRelevance_cosmetic_amended :
    checkNailRelevance (LabelOutcome.ok [⟨some "cosmetic", some (9/10)⟩]) =
      { isNailRelated := true, relevanceScore := 1,
        detectedLabels := ["cosmetic"], reasons := [] } ∧
    checkNailRelevance (LabelOutcome.ok [⟨some "zzz", some (9/10)⟩]) =
      { isNailRelated := false, relevanceScore := 0,
        detectedLabels := ["zzz"],
        reasons := ["Content does not appear to be nail-related",
                    "Detected: zzz"] } := by
  have hA : (NAIL_RELATED_LABELS.any fun t =>
      strIncludes "cosmetic" t || strIncludes t "cosmetic") = true := by decide
  have hB : (BEAUTY_PRODUCT_LABELS.any fun t =>
      strIncludes "cosmetic" t || strIncludes t "cosmetic") = true := by decide
  have hA2 : (NAIL_RELATED_LABELS.any fun t =>
      strIncludes "zzz" t || strIncludes t "zzz") = false := by decide
  have hB2 : (BEAUTY_PRODUCT_LABELS.any fun t =>
      strIncludes "zzz" t || strIncludes t "zzz") = false := by decide
  have hlow : toLowerStr "cosmetic" = "cosmetic" := by decide
  have hlow2 : toLowerStr "zzz" = "zzz" := by decide
  simp +decide [checkNailRelevance, jsOrStr, jsOrNum, relevanceFold_single,
    hA, hB, hA2, hB2, hlow, hlow2, max_def, min_def, joinComma]
  norm_num

/-- Claim C4 (counterexample): a successful withdraw is a terminal
transition, yet it leaves `reviewedBy` null; and a later reject changes
both review fields again — refuting both the "both non-null" and the
"never change again" parts of the claim at this concrete run. -/
theorem withdraw_reviewedBy_counterexample :
    (∃ d, (applyOps (createSubmission "u1" "nail art" ["m1"] true)
        [LifecycleOp.withdraw "u1" 5]).sub = some d ∧
      d.status = "withdrawn" ∧ d.reviewedAt = some 5 ∧ d.reviewedBy = none) ∧
    (∃ d, (applyOps (createSubmission "u1" "nail art" ["m1"] true)
        [LifecycleOp.withdraw "u1" 5,
         LifecycleOp.reject "mod" "off-topic" 9]).sub = some d ∧
      d.reviewedAt = some 9 ∧ d.reviewedBy = some "mod") := by
  exact ⟨⟨_, rfl, rfl, rfl, rfl⟩, ⟨_, rfl, rfl, rfl⟩⟩

/-- Claim C5 (code bug, evaluated at the failing input): approving an
already-approved submission does not fail — `approveSubmission` checks
only existence, so the second call succeeds and a second published entry
is created. -/
theorem approve_twice_second_succeeds :
    ∃ s1 : SysState,
      approveSubmission (createSubmission "u1" "nail art" ["m1"] true)
        "mod" "col" (5/10) "e1" 3 = Except.ok ("e1", s1) ∧
      (∃ d, s1.sub = some d ∧ d.status = "approved") ∧
      s1.entries.length = 1 ∧
      ∃ s2, approveSubmission s1 "mod" "col" (5/10) "e2" 4 =
          Except.ok ("e2", s2) ∧
        s2.entries.length = 2 := by
  exact ⟨_, rfl, ⟨_, rfl, rfl⟩, rfl, _, rfl, rfl⟩

/-- Claim C7: the Safety Scorer fails open on a thrown external call
(safe, zero score, a service-unavailable reason) and fails closed on a
successful call with no usable safe-search data (unsafe, score 1). -/
theorem moderateImage_failure_policy :
    moderateImage SafeSearchOutcome.err =
      { safe := true, spam := 0, inappropriate := 0,
        reasons := ["Moderation service temporarily unavailable"] } ∧
    (moderateImage (SafeSearchOutcome.ok none)).safe = false ∧
    (moderateImage (SafeSearchOutcome.ok none)).inappropriate = 1 ∧
    (moderateImage (SafeSearchOutcome.ok none)).reasons =
      ["Unable to analyze image"] := by
  exact ⟨rfl, rfl, rfl, rfl⟩

/-- Claim C9 (counterexample): with threshold 100, recording costs 101
then 1 warns at BOTH evaluations — the monthly total is recomputed and
compared on every record, so the warning is not emitted only at the
evaluation that crosses the threshold. -/
theorem cost_warning_every_record_counterexample :
    (runLedger 100 0 [] [(101, 5), (1, 6)]).2 = [(101, true), (102, true)] := by
  simp +decide [runLedger, trackModerationCost]
  norm_num

/-- Membership in the dedup worker: an element survives iff it occurs in
the remaining input and was not already seen. -/
theorem jsSetDedup_go_mem (l : List String) :
    ∀ (seen : List String) (s : String),
      s ∈ jsSetDedup.go seen l ↔ (s ∈ l ∧ s ∉ seen) := by
  induction l with
  | nil => intro seen s; simp [jsSetDedup.go]
  | cons x xs ih =>
    intro seen s
    by_cases hx : x ∈ seen
    · rw [jsSetDedup.go, if_pos hx, ih]
      constructor
      · rintro ⟨h1, h2⟩; exact ⟨List.mem_cons_of_mem _ h1, h2⟩
      · rintro ⟨h1, h2⟩
        rcases List.mem_cons.mp h1 with rfl | h1
        · exact absurd hx h2
        · exact ⟨h1, h2⟩
    · rw [jsSetDedup.go, if_neg hx]
      constructor
      · intro h
        rcases List.mem_cons.mp h with rfl | h
        · exact ⟨List.mem_cons_self _ _, hx⟩
        · obtain ⟨h1, h2⟩ := (ih _ _).mp h
          refine ⟨List.mem_cons_of_mem _ h1, fun hs => h2 ?_⟩
          exact List.mem_cons_of_mem _ hs
      · rintro ⟨h1, h2⟩
        rcases List.mem_cons.mp h1 with rfl | h1
        · exact List.mem_cons_self _ _
        · by_cases hsx : s = x
          · subst hsx; exact List.mem_cons_self _ _
          · refine List.mem_cons_of_mem _ ((ih _ _).mpr ⟨h1, ?_⟩)
            intro hs
            rcases List.mem_cons.mp hs with h | h
            · exact hsx h
            · exact h2 h

/-- `[...new Set(xs)]` keeps exactly the elements of `xs`. -/
theorem jsSetDedup_mem (l : List String) (s : String) :
    s ∈ jsSetDedup l ↔ s ∈ l := by
  rw [jsSetDedup, jsSetDedup_go_mem]
  simp

/-- The dedup worker returns a duplicate-free list. -/
theorem jsSetDedup_go_nodup (l : List String) :
    ∀ seen : List String, (jsSetDedup.go seen l).Nodup := by
  induction l with
  | nil => intro seen; simp [jsSetDedup.go]
  | cons x xs ih =>
    intro seen
    by_cases hx : x ∈ seen
    · rw [jsSetDedup.go, if_pos hx]; exact ih seen
    · rw [jsSetDedup.go, if_neg hx]
      refine List.Nodup.cons ?_ (ih (x :: seen))
      intro hmem
      exact ((jsSetDedup_go_mem xs _ _).mp hmem).2 (List.mem_cons_self _ _)

/-- `[...new Set(xs)]` is duplicate-free. -/
theorem jsSetDedup_nodup (l : List String) : (jsSetDedup l).Nodup :=
  jsSetDedup_go_nodup l []

/-- The initial accumulator is below a max-fold result. -/
theorem le_foldl_max_init : ∀ (qs : List ℚ) (q : ℚ), q ≤ qs.foldl max q := by
  intro qs
  induction qs with
  | nil => intro q; simp
  | cons a ts ih =>
    intro q
    calc q ≤ max q a := le_max_left q a
    _ ≤ ts.foldl max (max q a) := ih (max q a)

/-- Every list element is below a max-fold result. -/
theorem le_foldl_max_mem :
    ∀ (qs : List ℚ) (q x : ℚ), x ∈ qs → x ≤ qs.foldl max q := by
  intro qs
  induction qs with
  | nil => intro q x h; simp at h
  | cons a ts ih =>
    intro q x h
    rcases List.mem_cons.mp h with rfl | h
    · calc x ≤ max q x := le_max_right q x
      _ ≤ ts.foldl max (max q x) := le_foldl_max_init ts (max q x)
    · exact ih (max q a) x h

/-- A max-fold result is the initial accumulator or one of the list
elements. -/
theorem foldl_max_mem : ∀ (qs : List ℚ) (q : ℚ), qs.foldl max q ∈ q :: qs := by
  intro qs
  induction qs with
  | nil => intro q; simp
  | cons a ts ih =>
    intro q
    have h := ih (max q a)
    rcases List.mem_cons.mp h with h | h
    · simp only [List.foldl_cons, h]
      rcases max_choice q a with h2 | h2 <;> rw [h2] <;> simp
    · simp only [List.foldl_cons]
      exact List.mem_cons_of_mem _ (List.mem_cons_of_mem _ h)

/-- A min-fold result bounds the initial accumulator. -/
theorem foldl_min_le_init : ∀ (qs : List ℚ) (q : ℚ), qs.foldl min q ≤ q := by
  intro qs
  induction qs with
  | nil => intro q; simp
  | cons a ts ih =>
    intro q
    calc ts.foldl min (min q a) ≤ min q a := ih (min q a)
    _ ≤ q := min_le_left q a

/-- A min-fold result bounds every list element. -/
theorem foldl_min_le_mem :
    ∀ (qs : List ℚ) (q x : ℚ), x ∈ qs → qs.foldl min q ≤ x := by
  intro qs
  induction qs with
  | nil => intro q x h; simp at h
  | cons a ts ih =>
    intro q x h
    rcases List.mem_cons.mp h with rfl | h
    · calc ts.foldl min (min q x) ≤ min q x := foldl_min_le_init ts (min q x)
      _ ≤ x := min_le_right q x
    · exact ih (min q a) x h

/-- A min-fold result is the initial accumulator or one of the list
elements. -/
theorem foldl_min_mem : ∀ (qs : List ℚ) (q : ℚ), qs.foldl min q ∈ q :: qs := by
  intro qs
  induction qs with
  | nil => intro q; simp
  | cons a ts ih =>
    intro q
    have h := ih (min q a)
    rcases List.mem_cons.mp h with h | h
    · simp only [List.foldl_cons, h]
      rcases min_choice q a with h2 | h2 <;> rw [h2] <;> simp
    · simp only [List.foldl_cons]
      exact List.mem_cons_of_mem _ (List.mem_cons_of_mem _ h)

/-- `jsMax` of two finite JS numbers is the rational max. -/
theorem jsMax_fin (a b : ℚ) : jsMax (JNum.fin a) (JNum.fin b) = JNum.fin (max a b) := by
  by_cases h : a < b
  · simp [jsMax, jsLt, h, max_eq_right h.le]
  · simp [jsMax, jsLt, h, max_eq_left (not_lt.mp h)]

/-- `jsMin` of two finite JS numbers is the rational min. -/
theorem jsMin_fin (a b : ℚ) : jsMin (JNum.fin a) (JNum.fin b) = JNum.fin (min a b) := by
  by_cases h : b < a
  · simp [jsMin, jsLt, h, min_eq_right (le_of_lt h)]
  · simp [jsMin, jsLt, h, min_eq_left (not_lt.mp h)]

/-- Folding `jsMax` from a finite seed tracks the rational max-fold. -/
theorem foldl_jsMax_fin :
    ∀ (qs : List ℚ) (q : ℚ),
      qs.foldl (fun acc x => jsMax acc (JNum.fin x)) (JNum.fin q) =
        JNum.fin (qs.foldl max q) := by
  intro qs
  induction qs with
  | nil => intro q; rfl
  | cons a ts ih => intro q; simp only [List.foldl_cons, jsMax_fin, ih]

/-- Folding `jsMin` from a finite seed tracks the rational min-fold. -/
theorem foldl_jsMin_fin :
    ∀ (qs : List ℚ) (q : ℚ),
      qs.foldl (fun acc x => jsMin acc (JNum.fin x)) (JNum.fin q) =
        JNum.fin (qs.foldl min q) := by
  intro qs
  induction qs with
  | nil => intro q; rfl
  | cons a ts ih => intro q; simp only [List.foldl_cons, jsMin_fin, ih]

/-- `Math.max(...l)` over a non-empty list is a finite element of `l`
bounding all elements. -/
theorem jsMaxList_spec (l : List ℚ) (h : l ≠ []) :
    ∃ m, jsMaxList l = JNum.fin m ∧ m ∈ l ∧ ∀ x ∈ l, x ≤ m := by
  obtain ⟨q, qs, rfl⟩ := List.exists_cons_of_ne_nil h
  refine ⟨qs.foldl max q, ?_, ?_, ?_⟩
  · simp only [jsMaxList, List.foldl_cons]
    have : jsMax JNum.negInf (JNum.fin q) = JNum.fin q := rfl
    rw [this, foldl_jsMax_fin]
  · exact foldl_max_mem qs q
  · intro x hx
    rcases List.mem_cons.mp hx with rfl | hx
    · exact le_foldl_max_init qs x
    · exact le_foldl_max_mem qs q x hx

/-- `Math.min(...l)` over a non-empty list is a finite element of `l`
bounded by all elements. -/
theorem jsMinList_spec (l : List ℚ) (h : l ≠ []) :
    ∃ m, jsMinList l = JNum.fin m ∧ m ∈ l ∧ ∀ x ∈ l, m ≤ x := by
  obtain ⟨q, qs, rfl⟩ := List.exists_cons_of_ne_nil h
  refine ⟨qs.foldl min q, ?_, ?_, ?_⟩
  · simp only [jsMinList, List.foldl_cons]
    have : jsMin JNum.posInf (JNum.fin q) = JNum.fin q := rfl
    rw [this, foldl_jsMin_fin]
  · exact foldl_min_mem qs q
  · intro x hx
    rcases List.mem_cons.mp hx with rfl | hx
    · exact foldl_min_le_init qs x
    · exact foldl_min_le_mem qs q x hx

/-- With relevance checking disabled every padded per-image result is
marked nail-related. -/
theorem imageResultsOf_false_nailRelated (inputs : List ImageInput) :
    ∀ r ∈ imageResultsOf inputs false, r.nailRelated = true := by
  intro r hr
  simp only [imageResultsOf, List.mem_map] at hr
  obtain ⟨i, _, rfl⟩ := hr
  simp

/-- Claim C6 (counterexample): at `adult = 0.55`, `violence = racy = 0`
the safety scorer returns `safe = false` — `0.55` is not strictly below
the `0.5` gate — refuting the claim's example that this input yields
`safe = true` (the reasons list is indeed empty). -/
theorem scoreSafety_055_counterexample :
    (scoreSafety (11/20) 0 0).safe = false ∧
    (scoreSafety (11/20) 0 0).reasons = [] := by
  constructor
  · simp only [scoreSafety]
    norm_num [max_def]
  · simp only [scoreSafety]
    norm_num

/-- Claim C6 (amended): for probabilities in `[0,1]` the safety scorer
returns the max of the three axes as the inappropriate score, `safe`
holds exactly when that max is strictly below `0.5` independent of the
reasons, and each per-axis reason is appended exactly when that axis
strictly exceeds `0.6`; `adult = 0.55` with the other axes `0` yields an
empty reasons list but `safe = false`, since `0.55` is not below the
`0.5` gate. -/
theorem scoreSafety_thresholds (adult violence racy : ℚ)
    (ha0 : 0 ≤ adult) (ha1 : adult ≤ 1) (hv0 : 0 ≤ violence)
    (hv1 : violence ≤ 1) (hr0 : 0 ≤ racy) (hr1 : racy ≤ 1) :
    safetyScorerSpec adult violence racy ∧
    (scoreSafety (11/20) 0 0).safe = false ∧
    (scoreSafety (11/20) 0 0).reasons = [] := by
  refine ⟨⟨rfl, ?_, ?_, ?_, ?_⟩, ?_, ?_⟩
  · simp [scoreSafety]
  · by_cases h1 : (6:ℚ)/10 < adult <;> by_cases h2 : (6:ℚ)/10 < violence <;>
      by_cases h3 : (6:ℚ)/10 < racy <;>
      simp +decide [scoreSafety, h1, h2, h3]
  · by_cases h1 : (6:ℚ)/10 < adult <;> by_cases h2 : (6:ℚ)/10 < violence <;>
      by_cases h3 : (6:ℚ)/10 < racy <;>
      simp +decide [scoreSafety, h1, h2, h3]
  · by_cases h1 : (6:ℚ)/10 < adult <;> by_cases h2 : (6:ℚ)/10 < violence <;>
      by_cases h3 : (6:ℚ)/10 < racy <;>
      simp +decide [scoreSafety, h1, h2, h3]
  · simp only [scoreSafety]
    norm_num [max_def]
  · simp only [scoreSafety]
    norm_num

/-- Witness for the amended C6 at the concrete input `adult = 0.55`,
`violence = racy = 0`. -/
theorem scoreSafety_thresholds_witness :
    ((0:ℚ) ≤ 11/20 ∧ (11:ℚ)/20 ≤ 1 ∧ (0:ℚ) ≤ 0 ∧ (0:ℚ) ≤ 1) ∧
    (safetyScorerSpec (11/20) 0 0 ∧
      (scoreSafety (11/20) 0 0).safe = false ∧
      (scoreSafety (11/20) 0 0).reasons = []) :=
  ⟨⟨by norm_num, by norm_num, le_refl 0, by norm_num⟩,
   scoreSafety_thresholds (11/20) 0 0 (by norm_num) (by norm_num)
     (le_refl 0) (by norm_num) (le_refl 0) (by norm_num)⟩

/-- Claim C10: with an empty media list the max/min aggregation yields an
inappropriate score of `-Infinity` (and, in the enhanced variant, a
relevance score of `+Infinity`), `safe` reduces to the spam gate alone,
and the documented `inappropriateScore ∈ [0,1]` lower bound fails. -/
theorem empty_media_aggregation (recentCount : ℕ) (checkRelevance : Bool)
    (cpi cpl : ℚ) :
    (moderateSubmissionEnhanced recentCount [] checkRelevance cpi cpl).inappropriate
      = JNum.negInf ∧
    (moderateSubmissionEnhanced recentCount [] checkRelevance cpi cpl).nailRelevanceScore
      = JNum.posInf ∧
    ((moderateSubmissionEnhanced recentCount [] checkRelevance cpi cpl).safe = true ↔
      (moderateSubmissionEnhanced recentCount [] checkRelevance cpi cpl).spam < 7/10) ∧
    jsLe (JNum.fin 0)
      (moderateSubmissionEnhanced recentCount [] checkRelevance cpi cpl).inappropriate
      = false ∧
    (moderateSubmission recentCount [] cpi).inappropriate = JNum.negInf ∧
    ((moderateSubmission recentCount [] cpi).safe = true ↔
      (moderateSubmission recentCount [] cpi).spam < 7/10) := by
  refine ⟨rfl, rfl, ?_, rfl, rfl, ?_⟩
  · simp [moderateSubmissionEnhanced, imageResultsOf, jsMaxList, jsLt,
      List.foldl_nil]
  · simp [moderateSubmission, jsMaxList, jsLt, List.foldl_nil]

/-- Claim C2: over a non-empty media list the enhanced verdict reports the
max per-item inappropriate score, the min per-item relevance score,
`safe` equivalent to the documented three-way gate, and a duplicate-free
reasons list holding exactly the per-item reasons plus the spam reason
when triggered. -/
theorem enhanced_aggregate (recentCount : ℕ) (inputs : List ImageInput)
    (checkRelevance : Bool) (cpi cpl : ℚ) (hne : inputs ≠ []) :
    enhancedAggregateSpec recentCount inputs checkRelevance cpi cpl := by
  unfold enhancedAggregateSpec
  have hrs : imageResultsOf inputs checkRelevance ≠ [] := by
    simp [imageResultsOf, hne]
  obtain ⟨m, hm, hmem, hbound⟩ :=
    jsMaxList_spec
      ((imageResultsOf inputs checkRelevance).map
        EnhancedModerationResult.inappropriate)
      (by simpa using hrs)
  obtain ⟨mn, hmn, hmnmem, hmnbound⟩ :=
    jsMinList_spec
      ((imageResultsOf inputs checkRelevance).map
        EnhancedModerationResult.nailRelevanceScore)
      (by simpa using hrs)
  refine ⟨m, mn, hm, hmem, ?_, hmn, hmnmem, ?_, ?_, jsSetDedup_nodup _, ?_⟩
  · intro r hr
    exact hbound _ (List.mem_map_of_mem _ hr)
  · intro r hr
    exact hmnbound _ (List.mem_map_of_mem _ hr)
  · show (jsLt (jsMaxList _) (JNum.fin (5/10)) && _ && _) = true ↔ _
    rw [hm]
    simp only [jsLt, Bool.and_eq_true, decide_eq_true_eq, List.all_eq_true]
    constructor
    · rintro ⟨⟨h1, h2⟩, h3⟩
      exact ⟨h1, h2, fun _ => h3⟩
    · rintro ⟨h1, h2, h3⟩
      refine ⟨⟨h1, h2⟩, ?_⟩
      cases checkRelevance with
      | true => exact h3 rfl
      | false => exact imageResultsOf_false_nailRelated inputs
  · intro s
    show s ∈ jsSetDedup _ ↔ _
    rw [jsSetDedup_mem, List.mem_append, List.mem_flatMap]
    split_ifs with hsp
    · simp only [List.mem_singleton]
      constructor
      · rintro (⟨r, hr, hs⟩ | rfl)
        · exact Or.inl ⟨r, hr, hs⟩
        · exact Or.inr ⟨hsp, rfl⟩
      · rintro (⟨r, hr, hs⟩ | ⟨_, rfl⟩)
        · exact Or.inl ⟨r, hr, hs⟩
        · exact Or.inr rfl
    · constructor
      · rintro (⟨r, hr, hs⟩ | hs)
        · exact Or.inl ⟨r, hr, hs⟩
        · simp at hs
      · rintro (⟨r, hr, hs⟩ | ⟨hsp2, rfl⟩)
        · exact Or.inl ⟨r, hr, hs⟩
        · exact absurd hsp2 hsp

/-- Witness for C2 at a concrete one-element media list. -/
theorem enhanced_aggregate_witness :
    ([(⟨SafeSearchOutcome.err, LabelOutcome.err⟩ : ImageInput)] ≠ []) ∧
    enhancedAggregateSpec 0
      [⟨SafeSearchOutcome.err, LabelOutcome.err⟩] true 0 0 :=
  ⟨by simp,
   enhanced_aggregate 0 [⟨SafeSearchOutcome.err, LabelOutcome.err⟩] true 0 0
     (by simp)⟩

/-- Claim C8: the enhanced verdict's spam score is `min(recentCount/10, 1)`
and (when no per-image reason collides with it) the rapid-submission
reason is present exactly when that score strictly exceeds `0.7`; counts
0, 7, 10, 15 give scores 0, 0.7 (no reason), 1, 1. -/
theorem spam_heuristic (recentCount : ℕ) (inputs : List ImageInput)
    (checkRelevance : Bool) (cpi cpl : ℚ)
    (h : "Rapid submission pattern detected" ∉
      (imageResultsOf inputs checkRelevance).flatMap
        EnhancedModerationResult.reasons) :
    spamHeuristicSpec recentCount inputs checkRelevance cpi cpl ∧
    (moderateSubmissionEnhanced 0 [] true 0 0).spam = 0 ∧
    (moderateSubmissionEnhanced 7 [] true 0 0).spam = 7/10 ∧
    "Rapid submission pattern detected" ∉
      (moderateSubmissionEnhanced 7 [] true 0 0).reasons ∧
    (moderateSubmissionEnhanced 10 [] true 0 0).spam = 1 ∧
    (moderateSubmissionEnhanced 15 [] true 0 0).spam = 1 := by
  refine ⟨⟨rfl, ?_⟩, ?_, ?_, ?_, ?_, ?_⟩
  · show "Rapid submission pattern detected" ∈ jsSetDedup _ ↔ _
    rw [jsSetDedup_mem, List.mem_append]
    split_ifs with hsp
    · refine ⟨fun _ => hsp, fun _ => Or.inr ?_⟩
      simp
    · constructor
      · rintro (hs | hs)
        · exact absurd hs h
        · simp at hs
      · intro hs
        exact absurd hs hsp
  · show min ((0:ℚ)/10) 1 = 0
    norm_num
  · show min ((7:ℚ)/10) 1 = 7/10
    norm_num
  · show "Rapid submission pattern detected" ∉ jsSetDedup _
    rw [jsSetDedup_mem]
    simp only [imageResultsOf, List.map_nil, List.flatMap_nil,
      List.nil_append]
    split_ifs with hsp
    · exfalso
      revert hsp
      push_cast
      norm_num
    · simp
  · show min ((10:ℚ)/10) 1 = 1
    norm_num
  · show min ((15:ℚ)/10) 1 = 1
    norm_num

/-- Witness for C8 at `recentCount = 8` over an empty media list. -/
theorem spam_heuristic_witness :
    ("Rapid submission pattern detected" ∉
      (imageResultsOf [] true).flatMap EnhancedModerationResult.reasons) ∧
    (spamHeuristicSpec 8 [] true 0 0 ∧
      (moderateSubmissionEnhanced 0 [] true 0 0).spam = 0 ∧
      (moderateSubmissionEnhanced 7 [] true 0 0).spam = 7/10 ∧
      "Rapid submission pattern detected" ∉
        (moderateSubmissionEnhanced 7 [] true 0 0).reasons ∧
      (moderateSubmissionEnhanced 10 [] true 0 0).spam = 1 ∧
      (moderateSubmissionEnhanced 15 [] true 0 0).spam = 1) :=
  ⟨by simp [imageResultsOf], spam_heuristic 8 [] true 0 0 (by simp [imageResultsOf])⟩

/-- Sequential cost recordings from a collection whose in-month filtered
sum is known produce the running totals of `ledgerTotals`. -/
theorem runLedger_totals (threshold : ℚ) (monthStart : ℕ) :
    ∀ (recs : List (ℚ × ℕ)) (db : List CostRecord),
      (∀ r ∈ recs, monthStart ≤ r.2) →
      (runLedger threshold monthStart db recs).2 =
        ledgerTotals threshold
          (((db.filter fun r => monthStart ≤ r.timestamp).map
            CostRecord.estimatedCost).foldl (· + ·) 0) recs := by
  intro recs
  induction recs with
  | nil => intro db h; rfl
  | cons ct rest ih =>
    intro db h
    obtain ⟨c, t⟩ := ct
    have ht : monthStart ≤ t := h (c, t) (List.mem_cons_self _ _)
    have hsum :
        ((((db ++ [({
            userId := "u",
            imageCount := 1,
            estimatedCost := c,
            timestamp := t } : CostRecord)]).filter
          fun r => monthStart ≤ r.timestamp).map
            CostRecord.estimatedCost).foldl (· + ·) 0)
        = ((db.filter fun r => monthStart ≤ r.timestamp).map
            CostRecord.estimatedCost).foldl (· + ·) 0 + c := by
      rw [List.filter_append, List.map_append, List.foldl_append]
      simp [ht]
    show ((runLedger threshold monthStart _ rest).1,
        _ :: (runLedger threshold monthStart _ rest).2).2 = _
    rw [ledgerTotals]
    simp only [trackModerationCost]
    rw [ih _ (fun r hr => h r (List.mem_cons_of_mem _ hr)), hsum]

/-- `ledgerTotals` has one output per recording. -/
theorem ledgerTotals_length (threshold : ℚ) :
    ∀ (recs : List (ℚ × ℕ)) (s0 : ℚ),
      (ledgerTotals threshold s0 recs).length = recs.length := by
  intro recs
  induction recs with
  | nil => intro s0; rfl
  | cons ct rest ih =>
    intro s0
    obtain ⟨c, t⟩ := ct
    simp only [ledgerTotals, List.length_cons, ih]

/-- The k-th output of `ledgerTotals` is the offset prefix sum together
with its threshold comparison. -/
theorem ledgerTotals_get (threshold : ℚ) :
    ∀ (recs : List (ℚ × ℕ)) (s0 : ℚ) (k : ℕ)
      (hk : k < (ledgerTotals threshold s0 recs).length),
      (ledgerTotals threshold s0 recs).get ⟨k, hk⟩ =
        (s0 + ((recs.take (k+1)).map Prod.fst).sum,
         decide (threshold < s0 + ((recs.take (k+1)).map Prod.fst).sum)) := by
  intro recs
  induction recs with
  | nil =>
    intro s0 k hk
    simp [ledgerTotals] at hk
  | cons ct rest ih =>
    intro s0 k hk
    obtain ⟨c, t⟩ := ct
    cases k with
    | zero => simp [ledgerTotals]
    | succ k =>
      have hk' : k < (ledgerTotals threshold (s0 + c) rest).length := by
        simpa [ledgerTotals] using hk
      show (ledgerTotals threshold (s0 + c) rest).get ⟨k, hk'⟩ = _
      rw [ih (s0 + c) k hk']
      simp [List.take_cons, add_assoc]

/-- Claim C9 (amended): sequential recordings within the current month
give a k-th recomputed monthly total equal to `c₁ + … + c_k`, and the
warning fires at every evaluation whose total strictly exceeds the
threshold — including evaluations after the crossing — since the code
re-compares the recomputed total on every record. -/
theorem cost_ledger_amended (threshold : ℚ) (monthStart : ℕ)
    (recs : List (ℚ × ℕ)) (h : ∀ r ∈ recs, monthStart ≤ r.2) :
    ledgerSpec threshold monthStart recs := by
  simp only [ledgerSpec]
  rw [runLedger_totals threshold monthStart recs [] h]
  simp only [List.filter_nil, List.map_nil, List.foldl_nil]
  refine ⟨ledgerTotals_length threshold recs 0, ?_⟩
  intro k hk
  rw [ledgerTotals_get threshold recs 0 k hk]
  constructor
  · simp
  · simp

/-- Witness for the amended C9 at threshold 100 with costs 101 then 1. -/
theorem cost_ledger_amended_witness :
    (∀ r ∈ [((101:ℚ), (5:ℕ)), (1, 6)], (0:ℕ) ≤ r.2) ∧
    ledgerSpec 100 0 [(101, 5), (1, 6)] :=
  ⟨by decide, cost_ledger_amended 100 0 [(101, 5), (1, 6)] (by decide)⟩

/-- Review-field evolution over any operation sequence from a live
document: `reviewedAt` is null exactly while no operation has succeeded,
and `reviewedBy` is null exactly while no approve/reject has run —
withdraw never touches `reviewedBy`, and the owner never changes. -/
theorem applyOps_review_fields :
    ∀ (ops : List LifecycleOp) (s : SysState) (d : SubDoc), s.sub = some d →
      ∃ d', (applyOps s ops).sub = some d' ∧ d'.userId = d.userId ∧
        (d'.reviewedAt = none ↔
          (d.reviewedAt = none ∧ ∀ op ∈ ops, opSucceeds d.userId op = false)) ∧
        (d'.reviewedBy = none ↔
          (d.reviewedBy = none ∧ ∀ op ∈ ops, isReviewOp op = false)) := by
  intro ops
  induction ops with
  | nil =>
    intro s d h
    exact ⟨d, h, rfl, by simp, by simp⟩
  | cons op rest ih =>
    intro s d h
    have happ : applyOps s (op :: rest) = applyOps (stepOp s op) rest := rfl
    cases op with
    | withdraw uid now =>
      by_cases huid : d.userId = uid
      · have hstep : (stepOp s (LifecycleOp.withdraw uid now)).sub =
            some { d with status := "withdrawn", reviewedAt := some now } := by
          simp [stepOp, withdrawSubmission, h, huid]
        obtain ⟨d', h1, h2, h3, h4⟩ := ih _ _ hstep
        rw [happ]
        refine ⟨d', h1, by simpa using h2, ?_, ?_⟩
        · rw [h3]
          simp [opSucceeds, huid, List.forall_mem_cons]
        · rw [h4]
          simp [isReviewOp, List.forall_mem_cons]
      · have hstep : stepOp s (LifecycleOp.withdraw uid now) = s := by
          simp [stepOp, withdrawSubmission, h, huid]
        rw [happ, hstep]
        obtain ⟨d', h1, h2, h3, h4⟩ := ih s d h
        have huid' : ¬ (uid = d.userId) := fun hh => huid hh.symm
        refine ⟨d', h1, h2, ?_, ?_⟩
        · rw [h3]
          simp [opSucceeds, huid', List.forall_mem_cons]
        · rw [h4]
          simp [isReviewOp, List.forall_mem_cons]
    | approve rid cid tr eid now =>
      have hstep : (stepOp s (LifecycleOp.approve rid cid tr eid now)).sub =
          some { d with
            status := "approved",
            reviewedAt := some now,
            reviewedBy := some rid,
            approvedEntryId := some eid } := by
        simp [stepOp, approveSubmission, h]
      obtain ⟨d', h1, h2, h3, h4⟩ := ih _ _ hstep
      rw [happ]
      refine ⟨d', h1, by simpa using h2, ?_, ?_⟩
      · rw [h3]
        simp [opSucceeds, List.forall_mem_cons]
      · rw [h4]
        simp [isReviewOp, List.forall_mem_cons]
    | reject rid reason now =>
      have hstep : (stepOp s (LifecycleOp.reject rid reason now)).sub =
          some { d with
            status := "rejected",
            reviewedAt := some now,
            reviewedBy := some rid,
            rejectionReason := some reason } := by
        simp [stepOp, rejectSubmission, h]
      obtain ⟨d', h1, h2, h3, h4⟩ := ih _ _ hstep
      rw [happ]
      refine ⟨d', h1, by simpa using h2, ?_, ?_⟩
      · rw [h3]
        simp [opSucceeds, List.forall_mem_cons]
      · rw [h4]
        simp [isReviewOp, List.forall_mem_cons]

/-- Claim C4 (amended): from a fresh submission both review fields start
null; `reviewedAt` stays null exactly until the first successful terminal
operation, while `reviewedBy` stays null exactly until the first approve
or reject — a successful withdraw stamps only `reviewedAt` — and since no
terminal operation checks the prior status, later approves or rejects can
change both fields again. -/
theorem lifecycle_reviewed_fields (userId title : String)
    (urls : List String) (safe : Bool) (ops : List LifecycleOp) :
    ∃ d, (applyOps (createSubmission userId title urls safe) ops).sub = some d ∧
      (d.reviewedAt = none ↔ ∀ op ∈ ops, opSucceeds userId op = false) ∧
      (d.reviewedBy = none ↔ ∀ op ∈ ops, isReviewOp op = false) := by
  obtain ⟨d', h1, h2, h3, h4⟩ :=
    applyOps_review_fields ops (createSubmission userId title urls safe) _ rfl
  refine ⟨d', h1, ?_, ?_⟩
  · rw [h3]
    simp
  · rw [h4]
    simp
